import Mathlib

/-!
Shallow embedding of the `Lupin133/Trading` paper-trading system
(`src/trading/broker.py`, `src/trading/risk.py`, `src/trading/execution.py`,
`src/trading/state.py`) together with proofs of the specification claims.

Python floats are modelled as rationals (`ℚ`), Python dicts keyed by symbol
as ordered association lists (insertion order, unique keys in all reachable
states), and fallible operations (exceptions escaping a function) as
`Except String`. External effects (the yfinance price fetch, the wall
clock) are passed in as explicit parameters.
-/

namespace Trading

/-- Association-list lookup: first entry whose key matches, mirroring a
Python `dict.get`. -/
def alookup {α : Type} : List (String × α) → String → Option α
  | [], _ => none
  | (k, v) :: rest, sym => if k = sym then some v else alookup rest sym

/-- Association-list update mirroring Python `d[sym] = v`: replace the
(unique) entry in place, or append a fresh entry at the end. -/
def aset {α : Type} : List (String × α) → String → α → List (String × α)
  | [], sym, v => [(sym, v)]
  | (k, w) :: rest, sym, v =>
    if k = sym then (sym, v) :: rest else (k, w) :: aset rest sym v

/-- Association-list removal mirroring Python `d.pop(sym, None)`. -/
def aerase {α : Type} : List (String × α) → String → List (String × α)
  | [], _ => []
  | (k, w) :: rest, sym =>
    if k = sym then aerase rest sym else (k, w) :: aerase rest sym

/-- The fields of `AppConfig` (src/trading/config.py) that the core
engines read; all numeric fields are rationals. -/
structure AppConfig where
  risk_per_trade : ℚ
  max_global_exposure : ℚ
  max_symbol_exposure : ℚ
  max_daily_loss : ℚ
  max_drawdown : ℚ
  leverage_limit : ℚ
  spread_limit : ℚ
  volatility_limit : ℚ
  simulated_spread : ℚ
  simulated_slippage : ℚ
  initial_balance : ℚ
  magic_number : String
deriving Repr, DecidableEq

/-- A per-symbol position entry, the `{"size": …, "entry": …, "pnl": …}`
dict of `PaperBrokerClient.positions`. -/
structure Position where
  size : ℚ
  entry : ℚ
  pnl : ℚ
deriving Repr, DecidableEq

/-- `OrderRequest` dataclass (src/trading/broker.py). -/
structure OrderRequest where
  symbol : String
  side : String
  size : ℚ
  price : ℚ
  stop_loss : ℚ
  take_profit : Option ℚ
  order_type : String := "MARKET"
  time_in_force : String := "IOC"
  client_id : String := ""
deriving Repr, DecidableEq

/-- `OrderResult` dataclass (src/trading/broker.py). -/
structure OrderResult where
  success : Bool
  filled_size : ℚ
  avg_price : Option ℚ
  reason : Option String := none
  order_id : Option String := none
deriving Repr, DecidableEq

/-- `PriceTick` dataclass (src/trading/broker.py); the OHLC fields are
not read by the engines under proof and are omitted. -/
structure PriceTick where
  symbol : String
  bid : ℚ
  ask : ℚ
  timestamp : ℚ
  spread : ℚ
  volatility : ℚ
deriving Repr, DecidableEq

/-- The mutable fields of `PaperBrokerClient`. -/
structure BrokerState where
  connected : Bool
  balance : ℚ
  equity : ℚ
  margin_used : ℚ
  positions : List (String × Position)
  last_prices : List (String × ℚ)
deriving Repr, DecidableEq

/-- `PaperBrokerClient._mark_positions`: recompute every position's pnl at
`mid`, then margin_used and equity. -/
def mark_positions (cfg : AppConfig) (s : BrokerState) (mid : ℚ) : BrokerState :=
  let ps := s.positions.map fun p => (p.1, { p.2 with pnl := (mid - p.2.entry) * p.2.size })
  let unrealized := (ps.map fun p => p.2.pnl).sum
  let margin := (ps.map fun p => |p.2.size * mid| / cfg.leverage_limit).sum
  { s with positions := ps, margin_used := margin, equity := s.balance + unrealized }

/-- The dict returned by `PaperBrokerClient.get_account_info`. -/
structure AccountInfo where
  balance : ℚ
  equity : ℚ
  margin_used : ℚ
  unrealized : ℚ
deriving Repr, DecidableEq

/-- `PaperBrokerClient.get_account_info`: re-mark at the first known last
price (if any), then set equity = balance + Σ pnl and report the metrics. -/
def get_account_info (cfg : AppConfig) (s : BrokerState) : AccountInfo × BrokerState :=
  let s1 := match s.last_prices.head? with
    | some kv => mark_positions cfg s kv.2
    | none => s
  let unrealized := (s1.positions.map fun p => p.2.pnl).sum
  let s2 := { s1 with equity := s1.balance + unrealized }
  ({ balance := s2.balance, equity := s2.equity, margin_used := s2.margin_used,
     unrealized := unrealized }, s2)

/-- The simulated fill price of `submit_order`: ask for BUY / bid for
SELL around `mid`, plus slippage in the trade direction. -/
def fill_price_of (cfg : AppConfig) (side : String) (mid : ℚ) : ℚ :=
  let base := if side = "BUY" then mid + cfg.simulated_spread / 2
              else mid - cfg.simulated_spread / 2
  base + (if side = "BUY" then cfg.simulated_slippage else -cfg.simulated_slippage)

/-- The body of `PaperBrokerClient.submit_order` once a mid price is in
hand: compute the fill, apply the position-update rule (same-direction
add / new position vs. reduce / close / flip with realized PnL), drop a
zero-size position, re-mark everything at `mid`, and report success. -/
def fill_step (cfg : AppConfig) (s : BrokerState) (order : OrderRequest)
    (mid : ℚ) (now_ms : ℕ) : OrderResult × BrokerState :=
  let fill := fill_price_of cfg order.side mid
  let position := (alookup s.positions order.symbol).getD { size := 0, entry := fill, pnl := 0 }
  let signed_size : ℚ := if order.side = "BUY" then order.size else -order.size
  let updated :=
    if position.size = 0 ∨ (position.size > 0 ∧ signed_size > 0) ∨
        (position.size < 0 ∧ signed_size < 0) then
      let new_size := position.size + signed_size
      let entry1 := if position.size ≠ 0 then
          (position.entry * |position.size| + fill * |signed_size|) / |new_size|
        else position.entry
      (s.balance, { position with entry := entry1, size := new_size })
    else
      let closing_size := min |position.size| |signed_size|
      let realized := (fill - position.entry) * closing_size *
        (if position.size > 0 then 1 else -1)
      let new_size := position.size + signed_size
      let entry1 : ℚ := if new_size = 0 then 0 else fill
      (s.balance + realized, { position with size := new_size, entry := entry1 })
  let pos1 := { updated.2 with pnl := (mid - updated.2.entry) * updated.2.size }
  let positions1 := if pos1.size = 0 then aerase s.positions order.symbol
    else aset s.positions order.symbol pos1
  let s1 := mark_positions cfg { s with balance := updated.1, positions := positions1 } mid
  let order_id := order.client_id ++ "-" ++ toString now_ms
  ({ success := true, filled_size := order.size, avg_price := some fill,
     order_id := some order_id }, s1)

/-- `PaperBrokerClient.submit_order`. `fetched` is the outcome of the
external `_fetch_price_sync` call (performed only when no last price is
known for the symbol): `none` means the fetch raised, and the exception
escapes `submit_order` as an `Except.error`. `now_ms` is the wall clock
used for the order id. -/
def submit_order (cfg : AppConfig) (s : BrokerState) (order : OrderRequest)
    (fetched : Option ℚ) (now_ms : ℕ) : Except String (OrderResult × BrokerState) :=
  if s.connected = false then
    .ok ({ success := false, filled_size := 0, avg_price := none,
           reason := some "Disconnected" }, s)
  else
    match alookup s.last_prices order.symbol with
    | some mid => .ok (fill_step cfg s order mid now_ms)
    | none =>
      match fetched with
      | none => .error "Empty price history from yfinance"
      | some close =>
        let s1 := { s with last_prices := s.last_prices ++ [(order.symbol, close)] }
        .ok (fill_step cfg s1 order close now_ms)

/-- The ledger invariant of the spec: equity equals balance plus the sum
of every open position's pnl. -/
def ledgerInvariant (s : BrokerState) : Prop :=
  s.equity = s.balance + (s.positions.map fun p => p.2.pnl).sum

instance (s : BrokerState) : Decidable (ledgerInvariant s) := by
  unfold ledgerInvariant; infer_instance

/-- `OrderContext` dataclass (src/trading/risk.py). -/
structure OrderContext where
  symbol : String
  side : String
  price : ℚ
  stop_loss : ℚ
  take_profit : Option ℚ
  spread : ℚ
  volatility : ℚ
deriving Repr, DecidableEq

/-- The mutable fields of `RiskManager`: both start out `None`. -/
structure RiskState where
  daily_start_equity : Option ℚ
  equity_peak : Option ℚ
deriving Repr, DecidableEq

/-- `RiskManager.compute_position_size`: reject a non-positive stop
distance, else size = equity · risk_per_trade / stop_distance, floored
at zero. -/
def compute_position_size (cfg : AppConfig) (equity stop_distance : ℚ) :
    Except String ℚ :=
  if stop_distance ≤ 0 then .error "Stop distance must be positive"
  else .ok (max (equity * cfg.risk_per_trade / stop_distance) 0)

/-- `RiskManager._check_circuit_breakers`. The state updates (lazy
initialisation of daily-start/peak, peak ratchet) happen even when the
call then rejects; Python's `self.equity_peak or equity` treats a zero
peak like `None`. -/
def check_circuit_breakers (cfg : AppConfig) (rs : RiskState) (equity : ℚ) :
    RiskState × Option String :=
  let rs1 := if rs.daily_start_equity = none then
      { daily_start_equity := some equity, equity_peak := some equity }
    else rs
  let peak_base := match rs1.equity_peak with
    | none => equity
    | some p => if p = 0 then equity else p
  let rs2 := { rs1 with equity_peak := some (max peak_base equity) }
  let ds := rs2.daily_start_equity.getD 0
  if equity ≤ ds * (1 - cfg.max_daily_loss) then
    (rs2, some "Daily loss limit reached; trading halted")
  else if equity ≤ (rs2.equity_peak.getD 0) * (1 - cfg.max_drawdown) then
    (rs2, some "Max drawdown breached; trading halted")
  else
    (rs2, none)

/-- `RiskManager._check_leverage_and_exposure`: margin, per-symbol and
global exposure checks, in that order. Every position is valued at the
new order's `price` (`abs(pos["size"] * price)` in the source). -/
def check_leverage_and_exposure (cfg : AppConfig) (symbol : String)
    (price size : ℚ) (account : AccountInfo)
    (positions : List (String × Position)) : Option String :=
  let notional := price * size
  let projected_margin := account.margin_used + notional / cfg.leverage_limit
  if projected_margin > account.equity then some "Insufficient margin for order"
  else
    let current_symbol_notional := |(((alookup positions symbol).map Position.size).getD 0) * price|
    if current_symbol_notional + notional > account.equity * cfg.max_symbol_exposure then
      some "Per-symbol exposure limit exceeded"
    else
      let aggregate_notional := (positions.map fun p => |p.2.size * price|).sum
      if aggregate_notional + notional > account.equity * cfg.max_global_exposure then
        some "Global exposure limit exceeded"
      else none

/-- `RiskManager.validate_order`: circuit breakers, then sizing, then
exposure; returns the updated risk state together with the approved size
or the first rejection (a `RiskViolation` in the source). -/
def validate_order (cfg : AppConfig) (rs : RiskState) (ctx : OrderContext)
    (account : AccountInfo) (positions : List (String × Position)) :
    RiskState × Except String ℚ :=
  let cb := check_circuit_breakers cfg rs account.equity
  match cb.2 with
  | some e => (cb.1, .error e)
  | none =>
    let stop_distance := |ctx.price - ctx.stop_loss|
    match compute_position_size cfg account.equity stop_distance with
    | .error e => (cb.1, .error e)
    | .ok size =>
      if size ≤ 0 then (cb.1, .error "Computed size is zero; reject order")
      else
        match check_leverage_and_exposure cfg ctx.symbol ctx.price size account positions with
        | some e => (cb.1, .error e)
        | none => (cb.1, .ok size)

/-- `ExecutionDecision` dataclass (src/trading/execution.py). -/
structure ExecutionDecision where
  signal : String
  stop_loss : Option ℚ
  take_profit : Option ℚ
deriving Repr, DecidableEq

/-- A failed `OrderResult(False, 0, None, reason=…)`. -/
def failResult (reason : String) : OrderResult :=
  { success := false, filled_size := 0, avg_price := none, reason := some reason }

/-- The `OrderContext` that `OrderHandler.execute` builds from a tick and
a non-HOLD decision: side from the signal, entry price = ask for BUY /
bid for SELL. -/
def exec_context (tick : PriceTick) (decision : ExecutionDecision) (sl : ℚ) :
    OrderContext :=
  let side := if decision.signal = "BUY" then "BUY" else "SELL"
  { symbol := tick.symbol, side := side,
    price := if side = "BUY" then tick.ask else tick.bid, stop_loss := sl,
    take_profit := decision.take_profit, spread := tick.spread,
    volatility := tick.volatility }

/-- `OrderHandler.execute`: HOLD no-op, mandatory stop-loss, spread and
volatility gates, stop-side sanity check, risk validation (whose
`RiskViolation` is caught and returned as a failed result), then order
construction and submission to the broker. -/
def execute (cfg : AppConfig) (broker : BrokerState) (rs : RiskState)
    (tick : PriceTick) (decision : ExecutionDecision) (account : AccountInfo)
    (positions : List (String × Position)) (fetched : Option ℚ) (now_ms : ℕ) :
    Except String (OrderResult × RiskState × BrokerState) :=
  if decision.signal = "HOLD" then
    .ok ({ success := true, filled_size := 0, avg_price := none,
           reason := some "No action" }, rs, broker)
  else
    match decision.stop_loss with
    | none => .ok (failResult "Stop-loss required", rs, broker)
    | some sl =>
      if tick.spread > cfg.spread_limit then
        .ok (failResult "Spread too wide", rs, broker)
      else if tick.volatility > cfg.volatility_limit then
        .ok (failResult "Volatility too high", rs, broker)
      else
        let ctx := exec_context tick decision sl
        if ctx.side = "BUY" ∧ sl ≥ ctx.price then
          .ok (failResult "Stop-loss must be below entry for BUY", rs, broker)
        else if ctx.side = "SELL" ∧ sl ≤ ctx.price then
          .ok (failResult "Stop-loss must be above entry for SELL", rs, broker)
        else
          let validated := validate_order cfg rs ctx account positions
          match validated.2 with
          | .error e => .ok (failResult e, validated.1, broker)
          | .ok size =>
            let order : OrderRequest :=
              { symbol := tick.symbol, side := ctx.side, size := size,
                price := ctx.price, stop_loss := sl,
                take_profit := decision.take_profit, order_type := "MARKET",
                time_in_force := "IOC", client_id := cfg.magic_number }
            match submit_order cfg broker order fetched now_ms with
            | .error e => .error e
            | .ok res => .ok (res.1, validated.1, res.2)

/-- The persisted snapshot dict built by `StateManager._default_state`
and round-tripped through `persist`/`load` (src/trading/state.py). -/
structure Snapshot where
  positions : List (String × Position)
  equity : ℚ
  balance : ℚ
  unrealized : ℚ
  margin_used : ℚ
  daily_start_equity : ℚ
  equity_peak : ℚ
  trading_day : String
deriving Repr, DecidableEq

/-- The state file as `StateManager` distinguishes it: absent, present
but failing `json.loads` (corrupt), or a parsed snapshot. Python's
`json.dumps`/`json.loads` pair is external library code and is modelled
as exact on snapshot-shaped JSON objects, which it is; corruption is the
separate `corrupt` constructor. -/
inductive FileContent
  | absent
  | corrupt (raw : String)
  | valid (s : Snapshot)
deriving Repr, DecidableEq

/-- `StateManager._default_state` (`today` is `datetime.date.today()`). -/
def default_state (initial_balance : ℚ) (today : String) : Snapshot :=
  { positions := [], equity := initial_balance, balance := initial_balance,
    unrealized := 0, margin_used := 0, daily_start_equity := initial_balance,
    equity_peak := initial_balance, trading_day := today }

/-- `StateManager.load`: the parsed snapshot, or the default when the
file is absent or fails to parse; never raises. -/
def load (initial_balance : ℚ) (today : String) : FileContent → Snapshot
  | .absent => default_state initial_balance today
  | .corrupt _ => default_state initial_balance today
  | .valid s => s

/-- `StateManager.persist`: serialize and atomically replace the file. -/
def persist (_old : FileContent) (s : Snapshot) : FileContent :=
  .valid s

/-- Stated from the claim's words (for refutation), not from the source:
the aggregate notional across open positions with "each position valued
at its own price", reading a position's own price as its stored entry
price. The source instead values every position at the new order's
context price. -/
def aggregate_notional_own_price (positions : List (String × Position)) : ℚ :=
  (positions.map fun p => |p.2.size * p.2.entry|).sum

/-- Test harness for sequences of same-direction fills: for each
`(mid, size)` pair, publish `mid` as the symbol's last price (as
`price_stream` does on a tick) and submit a BUY of `size`. A failed
submission (impossible here: the last price is always known) stops the
run. -/
def runBuys (cfg : AppConfig) (sym : String) : BrokerState → List (ℚ × ℚ) → BrokerState
  | s, [] => s
  | s, (mid, sz) :: rest =>
    let s1 : BrokerState := { s with last_prices := aset s.last_prices sym mid }
    let order : OrderRequest :=
      { symbol := sym, side := "BUY", size := sz, price := 0, stop_loss := 0,
        take_profit := none }
    match submit_order cfg s1 order none 0 with
    | .ok r => runBuys cfg sym r.2 rest
    | .error _ => s1

/-- Total signed size of a run of BUY fills. -/
def totalSize (orders : List (ℚ × ℚ)) : ℚ :=
  (orders.map Prod.snd).sum

/-- Total notional of a run of BUY fills, each order valued at its own
simulated fill price. -/
def totalNotional (cfg : AppConfig) (orders : List (ℚ × ℚ)) : ℚ :=
  (orders.map fun o => fill_price_of cfg "BUY" o.1 * o.2).sum

/-! ### Concrete fixtures used by witnesses and counterexamples -/

/-- A configuration with the repository's default risk limits and a
frictionless simulated market (zero spread and slippage), so that fills
land exactly on the mid price. -/
def testConfig : AppConfig :=
  { risk_per_trade := 0.005, max_global_exposure := 2, max_symbol_exposure := 1,
    max_daily_loss := 0.02, max_drawdown := 0.1, leverage_limit := 20,
    spread_limit := 0.5, volatility_limit := 0.02, simulated_spread := 0,
    simulated_slippage := 0, initial_balance := 30000,
    magic_number := "ALGOBOT-001" }

/-- A connected broker long 10 units of gold at entry 2000, last mid
2010. -/
def sGold : BrokerState :=
  { connected := true, balance := 30000, equity := 30100, margin_used := 1005,
    positions := [("XAUUSD", { size := 10, entry := 2000, pnl := 100 })],
    last_prices := [("XAUUSD", 2010)] }

/-- A connected broker with no positions and no known prices. -/
def sNoPrice : BrokerState :=
  { connected := true, balance := 30000, equity := 30000, margin_used := 0,
    positions := [], last_prices := [] }

/-- A disconnected broker. -/
def sDisconnected : BrokerState :=
  { connected := false, balance := 30000, equity := 30000, margin_used := 0,
    positions := [], last_prices := [] }

/-- A SELL 15 market order on gold. -/
def ordSell : OrderRequest :=
  { symbol := "XAUUSD", side := "SELL", size := 15, price := 2009.9,
    stop_loss := 2020, take_profit := none }

/-- An account snapshot with the given equity (and balance), no margin
in use. -/
def acctAt (e : ℚ) : AccountInfo :=
  { balance := e, equity := e, margin_used := 0, unrealized := 0 }

/-- A BUY order context on gold at 2000 with stop 1990. -/
def ctxGold : OrderContext :=
  { symbol := "XAUUSD", side := "BUY", price := 2000, stop_loss := 1990,
    take_profit := none, spread := 0.2, volatility := 0 }

/-- A mid-day risk state: daily start and peak both 30000. -/
def rsMidday : RiskState :=
  { daily_start_equity := some 30000, equity_peak := some 30000 }

/-- A single foreign position: short-horizon EURUSD-style entry far from
the gold price. -/
def posOther : List (String × Position) :=
  [("EURUSD", { size := 20, entry := 100, pnl := 0 })]

/-- The SELL order of `ordSell` with a different request price. -/
def ordSellCheap : OrderRequest :=
  { symbol := "XAUUSD", side := "SELL", size := 15, price := 1,
    stop_loss := 2020, take_profit := none }

/-- A quiet gold tick around mid 2010. -/
def tickGold : PriceTick :=
  { symbol := "XAUUSD", bid := 2009.9, ask := 2010.1, timestamp := 0,
    spread := 0.2, volatility := 0 }

/-- A gold tick whose spread exceeds the 0.5 limit. -/
def tickWide : PriceTick :=
  { symbol := "XAUUSD", bid := 2009.5, ask := 2010.5, timestamp := 0,
    spread := 1, volatility := 0 }

/-- A BUY decision with a stop at 1990. -/
def decBuy : ExecutionDecision :=
  { signal := "BUY", stop_loss := some 1990, take_profit := none }

/-- Two BUY fills: 10 units at mid 2000, then 5 units at mid 2010. -/
def buysSeq : List (ℚ × ℚ) :=
  [(2000, 10), (2010, 5)]

/-- A BUY 5 market order on gold (adds to the long gold fixture). -/
def ordBuy5 : OrderRequest :=
  { symbol := "XAUUSD", side := "BUY", size := 5, price := 2010.1,
    stop_loss := 1990, take_profit := none }

/-! ### Helper lemmas -/

theorem ledgerInvariant_mark_positions (cfg : AppConfig) (s : BrokerState)
    (mid : ℚ) : ledgerInvariant (mark_positions cfg s mid) := rfl

theorem ledgerInvariant_fill_step (cfg : AppConfig) (s : BrokerState)
    (order : OrderRequest) (mid : ℚ) (n : ℕ) :
    ledgerInvariant (fill_step cfg s order mid n).2 := rfl

theorem check_circuit_breakers_daily_start (cfg : AppConfig) (rs : RiskState)
    (equity d : ℚ) (hds : rs.daily_start_equity = some d) :
    (check_circuit_breakers cfg rs equity).1.daily_start_equity = some d := by
  have hne : ¬ rs.daily_start_equity = none := by simp [hds]
  simp only [check_circuit_breakers, if_neg hne]
  split
  · simp [hds]
  · split <;> simp [hds]

theorem check_circuit_breakers_daily_hit (cfg : AppConfig) (rs : RiskState)
    (equity d : ℚ) (hds : rs.daily_start_equity = some d)
    (hle : equity ≤ d * (1 - cfg.max_daily_loss)) :
    (check_circuit_breakers cfg rs equity).2 =
      some "Daily loss limit reached; trading halted" := by
  simp [check_circuit_breakers, hds, hle]

theorem validate_order_fst (cfg : AppConfig) (rs : RiskState) (ctx : OrderContext)
    (account : AccountInfo) (positions : List (String × Position)) :
    (validate_order cfg rs ctx account positions).1 =
      (check_circuit_breakers cfg rs account.equity).1 := by
  rcases h : (check_circuit_breakers cfg rs account.equity).2 with _ | e
  · simp only [validate_order, h]
    rcases hs : compute_position_size cfg account.equity |ctx.price - ctx.stop_loss| with e | sz
    · simp only [hs]
    · simp only [hs]
      split
      · rfl
      · split <;> rfl
  · simp [validate_order, h]

theorem validate_order_snd_of_cb_error (cfg : AppConfig) (rs : RiskState)
    (ctx : OrderContext) (account : AccountInfo)
    (positions : List (String × Position)) (e : String)
    (h : (check_circuit_breakers cfg rs account.equity).2 = some e) :
    (validate_order cfg rs ctx account positions).2 = Except.error e := by
  simp [validate_order, h]

/-! ### Claim theorems -/

/-- C9: `persist` followed by `load` returns the stored snapshot
unchanged, and `load` on an absent or unparseable file returns the
default snapshot (initial balance as balance and equity, empty
positions, zero margin, today's date) without raising. -/
theorem persist_load_roundtrip :
    (∀ (ib : ℚ) (today : String) (fc : FileContent) (s : Snapshot),
      load ib today (persist fc s) = s) ∧
    (∀ (ib : ℚ) (today : String),
      load ib today FileContent.absent = default_state ib today) ∧
    (∀ (ib : ℚ) (today : String) (raw : String),
      load ib today (FileContent.corrupt raw) = default_state ib today) :=
  ⟨fun _ _ _ _ => rfl, fun _ _ => rfl, fun _ _ _ => rfl⟩

/-- C2: after every ledger mutation — every successful `submit_order`
fill and every `get_account_info` mark-to-market — the broker state
satisfies equity = balance + Σ position.pnl. -/
theorem equity_balance_pnl_invariant :
    (∀ (cfg : AppConfig) (s : BrokerState) (order : OrderRequest)
        (fetched : Option ℚ) (now_ms : ℕ) (r : OrderResult × BrokerState),
      submit_order cfg s order fetched now_ms = Except.ok r →
      r.1.success = true → ledgerInvariant r.2) ∧
    (∀ (cfg : AppConfig) (s : BrokerState),
      ledgerInvariant (get_account_info cfg s).2) := by
  constructor
  · intro cfg s order fetched now_ms r h hsucc
    unfold submit_order at h
    split at h
    · injection h with h1
      subst h1
      simp at hsucc
    · split at h
      · injection h with h1
        subst h1
        exact ledgerInvariant_fill_step ..
      · split at h
        · simp at h
        · injection h with h1
          subst h1
          exact ledgerInvariant_fill_step ..
  · intro cfg s
    rfl

/-- C2 witness: the invariant holds after the concrete SELL fill on the
gold fixture. -/
theorem equity_balance_pnl_invariant_witness :
    ledgerInvariant (fill_step testConfig sGold ordSell 2010 7).2 :=
  equity_balance_pnl_invariant.1 testConfig sGold ordSell none 7
    (fill_step testConfig sGold ordSell 2010 7) rfl rfl

/-- C10: the request's `price` field has no influence on the simulated
fill: on the same connected broker state, two requests that differ only
in `price` produce the same `OrderResult` and the same resulting broker
state. -/
theorem submit_order_price_noninterference (cfg : AppConfig) (s : BrokerState)
    (fetched : Option ℚ) (now_ms : ℕ) (r1 r2 : OrderRequest)
    (_hc : s.connected = true)
    (h1 : r1.symbol = r2.symbol) (h2 : r1.side = r2.side)
    (h3 : r1.size = r2.size) (h4 : r1.stop_loss = r2.stop_loss)
    (h5 : r1.take_profit = r2.take_profit) (h6 : r1.order_type = r2.order_type)
    (h7 : r1.time_in_force = r2.time_in_force)
    (h8 : r1.client_id = r2.client_id) :
    submit_order cfg s r1 fetched now_ms = submit_order cfg s r2 fetched now_ms := by
  obtain ⟨a1, b1, c1, p1, d1, e1, f1, g1, k1⟩ := r1
  obtain ⟨a2, b2, c2, p2, d2, e2, f2, g2, k2⟩ := r2
  dsimp only at h1 h2 h3 h4 h5 h6 h7 h8
  subst h1; subst h2; subst h3; subst h4; subst h5; subst h6; subst h7; subst h8
  rfl

/-- C10 witness: the SELL order and the same order repriced at 1 fill
identically on the gold fixture. -/
theorem submit_order_price_noninterference_witness :
    submit_order testConfig sGold ordSell none 7 =
      submit_order testConfig sGold ordSellCheap none 7 :=
  submit_order_price_noninterference testConfig sGold none 7 ordSell ordSellCheap
    rfl rfl rfl rfl rfl rfl rfl rfl rfl

/-- C6: with the circuit breakers passing, `validate_order` rejects a
non-positive stop distance `|price − stop_loss|` with the
invalid-stop-distance reason, rejects a non-positive computed size with
the zero-size reason, and any approved size equals
equity · risk_per_trade / stop_distance. -/
theorem validate_order_sizing (cfg : AppConfig) (rs : RiskState)
    (ctx : OrderContext) (account : AccountInfo)
    (positions : List (String × Position)) :
    ((check_circuit_breakers cfg rs account.equity).2 = none →
      (|ctx.price - ctx.stop_loss| ≤ 0 →
        (validate_order cfg rs ctx account positions).2 =
          Except.error "Stop distance must be positive") ∧
      (account.equity * cfg.risk_per_trade / |ctx.price - ctx.stop_loss| ≤ 0 →
        0 < |ctx.price - ctx.stop_loss| →
        (validate_order cfg rs ctx account positions).2 =
          Except.error "Computed size is zero; reject order")) ∧
    (∀ sz : ℚ, (validate_order cfg rs ctx account positions).2 = Except.ok sz →
      sz = account.equity * cfg.risk_per_trade / |ctx.price - ctx.stop_loss|) := by
  constructor
  · intro hcb
    constructor
    · intro hd
      simp [validate_order, compute_position_size, hcb, hd]
    · intro hsz hd
      have hmax : max (account.equity * cfg.risk_per_trade / |ctx.price - ctx.stop_loss|) 0 ≤ 0 :=
        max_le hsz le_rfl
      simp [validate_order, compute_position_size, hcb, not_le.mpr hd, hmax]
  · intro sz h
    rcases hcb : (check_circuit_breakers cfg rs account.equity).2 with _ | e
    · by_cases hd : |ctx.price - ctx.stop_loss| ≤ 0
      · simp [validate_order, compute_position_size, hcb, hd] at h
      · by_cases hz :
            max (account.equity * cfg.risk_per_trade / |ctx.price - ctx.stop_loss|) 0 ≤ 0
        · simp [validate_order, compute_position_size, hcb, hd, hz] at h
        · simp [validate_order, compute_position_size, hcb, hd, hz] at h
          split at h
          · simp at h
          · simp at h
            rcases max_cases (account.equity * cfg.risk_per_trade / |ctx.price - ctx.stop_loss|) 0 with
              ⟨he, _⟩ | ⟨he, _⟩
            · rw [← h, he]
            · exact absurd (le_of_eq he) hz
    · simp [validate_order, hcb] at h

/-- C6 witness: with equity 30000, risk_per_trade 0.005, BUY at price
2000 and stop 1990, the approved size is exactly 15. -/
theorem validate_order_sizing_witness :
    (validate_order testConfig rsMidday ctxGold (acctAt 30000) []).2 =
      Except.ok 15 ∧
    (15 : ℚ) = (acctAt 30000).equity * testConfig.risk_per_trade /
      |ctxGold.price - ctxGold.stop_loss| := by
  have h : (validate_order testConfig rsMidday ctxGold (acctAt 30000) []).2 =
      Except.ok 15 := by
    norm_num [validate_order, check_circuit_breakers, compute_position_size,
      check_leverage_and_exposure, alookup, testConfig, rsMidday, ctxGold,
      acctAt, max_def]
  exact ⟨h, (validate_order_sizing testConfig rsMidday ctxGold (acctAt 30000) []).2 15 h⟩

/-- C3 counterexample: on the stock configuration with daily start
equity 30000, a call at equity 29000 observes the daily-loss breach and
rejects, yet a later call the same trading day (same risk state) with
equity back at 30000 and the same request is approved with size 15 —
the rejection does not latch. -/
theorem daily_loss_no_latch_counterexample :
    (validate_order testConfig rsMidday ctxGold (acctAt 29000) []).2 =
      Except.error "Daily loss limit reached; trading halted" ∧
    (validate_order testConfig
        (validate_order testConfig rsMidday ctxGold (acctAt 29000) []).1
        ctxGold (acctAt 30000) []).2 = Except.ok 15 := by
  constructor
  · simp [validate_order, check_circuit_breakers, compute_position_size,
      check_leverage_and_exposure, alookup, testConfig, rsMidday, ctxGold,
      acctAt, max_def]
    norm_num
  · simp [validate_order, check_circuit_breakers, compute_position_size,
      check_leverage_and_exposure, alookup, testConfig, rsMidday, ctxGold,
      acctAt, max_def]
    norm_num

/-- C3 amended: `validate_order` never changes an initialized
daily-start equity, and every call within the day whose observed equity
is at or below daily_start·(1 − max_daily_loss) returns the daily-loss
rejection, regardless of the requested order's parameters; a call whose
equity has recovered above that threshold is not rejected by the
daily-loss breaker. -/
theorem daily_loss_below_threshold_rejects (cfg : AppConfig) (rs : RiskState)
    (ctx : OrderContext) (account : AccountInfo)
    (positions : List (String × Position)) (d : ℚ)
    (hds : rs.daily_start_equity = some d) :
    (validate_order cfg rs ctx account positions).1.daily_start_equity = some d ∧
    (account.equity ≤ d * (1 - cfg.max_daily_loss) →
      (validate_order cfg rs ctx account positions).2 =
        Except.error "Daily loss limit reached; trading halted") := by
  constructor
  · rw [validate_order_fst]
    exact check_circuit_breakers_daily_start cfg rs account.equity d hds
  · intro hle
    exact validate_order_snd_of_cb_error cfg rs ctx account positions _
      (check_circuit_breakers_daily_hit cfg rs account.equity d hds hle)

/-- C3 witness: the amended latch: with daily start 30000, the call at
equity 29000 keeps daily start 30000 and rejects with the daily-loss
reason. -/
theorem daily_loss_below_threshold_rejects_witness :
    (validate_order testConfig rsMidday ctxGold (acctAt 29000) []).1.daily_start_equity =
      some 30000 ∧
    (validate_order testConfig rsMidday ctxGold (acctAt 29000) []).2 =
      Except.error "Daily loss limit reached; trading halted" :=
  ⟨(daily_loss_below_threshold_rejects testConfig rsMidday ctxGold (acctAt 29000) [] 30000 rfl).1,
   (daily_loss_below_threshold_rejects testConfig rsMidday ctxGold (acctAt 29000) [] 30000 rfl).2
     (by norm_num [testConfig, acctAt])⟩

/-- C4 counterexample: on a connected broker with no known price for
the symbol, a failing external price fetch escapes `submit_order` as an
exception instead of an `OrderResult`. -/
theorem submit_order_raises_counterexample :
    sNoPrice.connected = true ∧
    submit_order testConfig sNoPrice ordSell none 7 =
      Except.error "Empty price history from yfinance" :=
  ⟨rfl, rfl⟩

/-- C4 amended: `submit_order` returns a failure with reason
"Disconnected" when the broker is not connected, and a successful
result with filled size = requested size and an order id whenever it is
connected and a mid price is available (the symbol's last price is
known, or the external fetch succeeds); only a failing fetch on an
unknown symbol escapes as an exception. -/
theorem submit_order_totality (cfg : AppConfig) (s : BrokerState)
    (order : OrderRequest) (fetched : Option ℚ) (now_ms : ℕ) :
    (s.connected = false →
      submit_order cfg s order fetched now_ms =
        Except.ok ({ success := false, filled_size := 0, avg_price := none,
                     reason := some "Disconnected" }, s)) ∧
    (s.connected = true →
      ((alookup s.last_prices order.symbol).isSome ∨ fetched.isSome) →
      ∃ r : OrderResult × BrokerState,
        submit_order cfg s order fetched now_ms = Except.ok r ∧
        r.1.success = true ∧ r.1.filled_size = order.size ∧
        r.1.order_id = some (order.client_id ++ "-" ++ toString now_ms)) := by
  constructor
  · intro hc
    simp only [submit_order, if_pos hc]
  · intro hc hmid
    rcases hlk : alookup s.last_prices order.symbol with _ | mid
    · rcases hf : fetched with _ | c
      · rw [hlk, hf] at hmid
        simp at hmid
      · refine ⟨fill_step cfg
          { s with last_prices := s.last_prices ++ [(order.symbol, c)] } order c now_ms,
          ?_, rfl, rfl, rfl⟩
        simp [submit_order, hc, hlk, hf]
    · refine ⟨fill_step cfg s order mid now_ms, ?_, rfl, rfl, rfl⟩
      simp [submit_order, hc, hlk]

/-- C4 witness: a disconnected broker yields the Disconnected failure,
and the connected gold fixture yields a successful result with filled
size 15 and an order id. -/
theorem submit_order_totality_witness :
    submit_order testConfig sDisconnected ordSell none 7 =
      Except.ok ({ success := false, filled_size := 0, avg_price := none,
                   reason := some "Disconnected" }, sDisconnected) ∧
    ∃ r : OrderResult × BrokerState,
      submit_order testConfig sGold ordSell none 7 = Except.ok r ∧
      r.1.success = true ∧ r.1.filled_size = ordSell.size ∧
      r.1.order_id = some (ordSell.client_id ++ "-" ++ toString 7) :=
  ⟨(submit_order_totality testConfig sDisconnected ordSell none 7).1 rfl,
   (submit_order_totality testConfig sGold ordSell none 7).2 rfl (Or.inl rfl)⟩

/-- C7 counterexample: with a foreign position of 20 units at entry 100
and a gold BUY sized to 15 at price 2000, the code rejects with the
global-exposure reason although the aggregate with each position valued
at its own (entry) price, 2000 + 30000, does not exceed
equity · max_global_exposure = 60000: the source values every position
at the new order's price. -/
theorem global_exposure_own_price_counterexample :
    (validate_order testConfig rsMidday ctxGold (acctAt 30000) posOther).2 =
      Except.error "Global exposure limit exceeded" ∧
    ¬ (aggregate_notional_own_price posOther + ctxGold.price * 15 >
        (acctAt 30000).equity * testConfig.max_global_exposure) := by
  constructor
  · simp [validate_order, check_circuit_breakers, compute_position_size,
      check_leverage_and_exposure, alookup, testConfig, rsMidday, ctxGold,
      acctAt, posOther, max_def]
    norm_num
  · norm_num [aggregate_notional_own_price, posOther, ctxGold, acctAt, testConfig]

/-- C7 amended: with the circuit breakers, sizing, margin check and
per-symbol check all passing, `validate_order` rejects with the
global-exposure reason exactly when the aggregate notional across all
open positions — every position valued at the new order's context
price — plus the new order's notional exceeds
equity · max_global_exposure. -/
theorem global_exposure_at_order_price (cfg : AppConfig) (rs : RiskState)
    (ctx : OrderContext) (account : AccountInfo)
    (positions : List (String × Position)) (sz : ℚ)
    (hcb : (check_circuit_breakers cfg rs account.equity).2 = none)
    (hsz : compute_position_size cfg account.equity |ctx.price - ctx.stop_loss| =
      Except.ok sz)
    (hpos : 0 < sz)
    (hmargin : ¬ (account.margin_used + ctx.price * sz / cfg.leverage_limit >
      account.equity))
    (hsym : ¬ (|(((alookup positions ctx.symbol).map Position.size).getD 0) * ctx.price| +
        ctx.price * sz > account.equity * cfg.max_symbol_exposure)) :
    ((validate_order cfg rs ctx account positions).2 =
        Except.error "Global exposure limit exceeded" ↔
      (positions.map fun p => |p.2.size * ctx.price|).sum + ctx.price * sz >
        account.equity * cfg.max_global_exposure) := by
  simp only [validate_order, hcb, hsz, check_leverage_and_exposure]
  rw [if_neg (not_le.mpr hpos), if_neg hmargin, if_neg hsym]
  split
  · next e heq =>
    split at heq
    · next hgt =>
      cases heq
      exact iff_of_true rfl hgt
    · exact absurd heq (by simp)
  · next heq =>
    split at heq
    · exact absurd heq (by simp)
    · next hgt => exact iff_of_false (by simp) hgt

/-- C7 witness: the amended global-exposure rule on the concrete
fixture: 40000 + 30000 > 60000, so the order is rejected with the
global-exposure reason. -/
theorem global_exposure_at_order_price_witness :
    (validate_order testConfig rsMidday ctxGold (acctAt 30000) posOther).2 =
      Except.error "Global exposure limit exceeded" :=
  (global_exposure_at_order_price testConfig rsMidday ctxGold (acctAt 30000)
      posOther 15
      (by norm_num [check_circuit_breakers, rsMidday, acctAt, testConfig])
      (by norm_num [compute_position_size, acctAt, ctxGold, testConfig, max_def])
      (by norm_num)
      (by norm_num [acctAt, ctxGold, testConfig])
      (by simp [alookup, posOther, acctAt, ctxGold, testConfig]
          norm_num)).mpr
    (by norm_num [posOther, acctAt, ctxGold, testConfig])

theorem alookup_map {α β : Type} (f : α → β) :
    ∀ (l : List (String × α)) (sym : String),
      alookup (l.map fun q => (q.1, f q.2)) sym = (alookup l sym).map f
  | [], _ => rfl
  | (k, v) :: rest, sym => by
    by_cases h : k = sym <;> simp [alookup, h, alookup_map f rest sym]

theorem alookup_aerase_self {α : Type} :
    ∀ (l : List (String × α)) (sym : String), alookup (aerase l sym) sym = none
  | [], _ => rfl
  | (k, v) :: rest, sym => by
    by_cases h : k = sym <;> simp [aerase, alookup, h, alookup_aerase_self rest sym]

theorem alookup_aset_self {α : Type} :
    ∀ (l : List (String × α)) (sym : String) (v : α),
      alookup (aset l sym v) sym = some v
  | [], _, _ => by simp [aset, alookup]
  | (k, w) :: rest, sym, v => by
    by_cases h : k = sym <;> simp [aset, alookup, h, alookup_aset_self rest sym v]

theorem mark_positions_balance (cfg : AppConfig) (s : BrokerState) (mid : ℚ) :
    (mark_positions cfg s mid).balance = s.balance := rfl

theorem mark_positions_connected (cfg : AppConfig) (s : BrokerState) (mid : ℚ) :
    (mark_positions cfg s mid).connected = s.connected := rfl

theorem mark_positions_alookup (cfg : AppConfig) (s : BrokerState) (mid : ℚ)
    (sym : String) :
    alookup (mark_positions cfg s mid).positions sym =
      (alookup s.positions sym).map
        fun q : Position => { q with pnl := (mid - q.entry) * q.size } := by
  simpa [mark_positions] using
    alookup_map (fun q : Position => { q with pnl := (mid - q.entry) * q.size })
      s.positions sym

theorem fill_step_connected (cfg : AppConfig) (s : BrokerState)
    (order : OrderRequest) (mid : ℚ) (n : ℕ) :
    (fill_step cfg s order mid n).2.connected = s.connected := rfl

theorem fill_step_last_prices (cfg : AppConfig) (s : BrokerState)
    (order : OrderRequest) (mid : ℚ) (n : ℕ) :
    (fill_step cfg s order mid n).2.last_prices = s.last_prices := rfl

/-- The reduce/close/flip branch of `fill_step`: realized PnL into the
balance, position removed at zero, residual leg re-based at the fill. -/
theorem fill_step_reduce (cfg : AppConfig) (s : BrokerState)
    (order : OrderRequest) (mid : ℚ) (n : ℕ) (p : Position) (signed : ℚ)
    (hpos : alookup s.positions order.symbol = some p)
    (hsigned : signed = (if order.side = "BUY" then order.size else -order.size))
    (hopp : (0 < p.size ∧ signed < 0) ∨ (p.size < 0 ∧ 0 < signed)) :
    (fill_step cfg s order mid n).2.balance =
      s.balance + (fill_price_of cfg order.side mid - p.entry) *
        min |p.size| |signed| * (if 0 < p.size then 1 else -1) ∧
    (p.size + signed = 0 →
      alookup (fill_step cfg s order mid n).2.positions order.symbol = none) ∧
    (p.size + signed ≠ 0 →
      alookup (fill_step cfg s order mid n).2.positions order.symbol =
        some { size := p.size + signed,
               entry := fill_price_of cfg order.side mid,
               pnl := (mid - fill_price_of cfg order.side mid) *
                 (p.size + signed) }) := by
  have hcond : ¬ (p.size = 0 ∨ (p.size > 0 ∧ signed > 0) ∨
      (p.size < 0 ∧ signed < 0)) := by
    rintro (h | ⟨h1, h2⟩ | ⟨h1, h2⟩) <;>
      rcases hopp with ⟨g1, g2⟩ | ⟨g1, g2⟩ <;> linarith
  constructor
  · simp only [fill_step, hpos, Option.getD_some, ← hsigned, if_neg hcond,
      mark_positions_balance]
  constructor
  · intro hz
    simp only [fill_step, hpos, Option.getD_some, ← hsigned, if_neg hcond,
      mark_positions_alookup]
    rw [if_pos hz]
    simp [hz, alookup_aerase_self]
  · intro hnz
    simp only [fill_step, hpos, Option.getD_some, ← hsigned, if_neg hcond,
      mark_positions_alookup]
    rw [if_neg hnz]
    simp [hnz, alookup_aset_self, if_neg hnz]

/-- C1: an order whose signed size opposes the existing position
realizes (fill − entry) · min(|old|, |signed|) · sign(old) into the
balance, sets the new size to old + signed, removes the position from
the map when the new size is zero, and otherwise re-bases the residual
leg's entry at the fill price (a flip does not blend bases). -/
theorem submit_order_reduce_close_flip (cfg : AppConfig) (s : BrokerState)
    (order : OrderRequest) (fetched : Option ℚ) (now_ms : ℕ) (mid : ℚ)
    (p : Position) (signed : ℚ)
    (hc : s.connected = true)
    (hmid : alookup s.last_prices order.symbol = some mid)
    (hpos : alookup s.positions order.symbol = some p)
    (hsigned : signed = (if order.side = "BUY" then order.size else -order.size))
    (hopp : (0 < p.size ∧ signed < 0) ∨ (p.size < 0 ∧ 0 < signed)) :
    ∃ s2 : BrokerState,
      submit_order cfg s order fetched now_ms =
        Except.ok ({ success := true, filled_size := order.size,
                     avg_price := some (fill_price_of cfg order.side mid),
                     reason := none,
                     order_id := some (order.client_id ++ "-" ++ toString now_ms) },
                   s2) ∧
      s2.balance = s.balance + (fill_price_of cfg order.side mid - p.entry) *
        min |p.size| |signed| * (if 0 < p.size then 1 else -1) ∧
      (p.size + signed = 0 → alookup s2.positions order.symbol = none) ∧
      (p.size + signed ≠ 0 → alookup s2.positions order.symbol =
        some { size := p.size + signed,
               entry := fill_price_of cfg order.side mid,
               pnl := (mid - fill_price_of cfg order.side mid) *
                 (p.size + signed) }) := by
  obtain ⟨hbal, hzero, hnonzero⟩ :=
    fill_step_reduce cfg s order mid now_ms p signed hpos hsigned hopp
  refine ⟨(fill_step cfg s order mid now_ms).2, ?_, hbal, hzero, hnonzero⟩
  have hsub : submit_order cfg s order fetched now_ms =
      Except.ok (fill_step cfg s order mid now_ms) := by
    simp [submit_order, hc, hmid]
  rw [hsub]
  rfl

/-- C1 witness: from position size +10 entry 2000, a SELL of 15 filling
at 2010 (frictionless market, mid 2010) realizes
(2010 − 2000) · 10 · 1 = 100 to the balance and leaves size −5 with
entry 2010. -/
theorem submit_order_reduce_close_flip_witness :
    (∃ s2 : BrokerState,
      submit_order testConfig sGold ordSell none 7 =
        Except.ok ({ success := true, filled_size := ordSell.size,
                     avg_price := some (fill_price_of testConfig ordSell.side 2010),
                     reason := none,
                     order_id := some (ordSell.client_id ++ "-" ++ toString 7) },
                   s2) ∧
      s2.balance = sGold.balance + (fill_price_of testConfig ordSell.side 2010 - 2000) *
        min |(10 : ℚ)| |(-15 : ℚ)| * (if (0 : ℚ) < 10 then 1 else -1) ∧
      ((10 : ℚ) + -15 = 0 → alookup s2.positions ordSell.symbol = none) ∧
      ((10 : ℚ) + -15 ≠ 0 → alookup s2.positions ordSell.symbol =
        some { size := 10 + -15,
               entry := fill_price_of testConfig ordSell.side 2010,
               pnl := (2010 - fill_price_of testConfig ordSell.side 2010) *
                 (10 + -15) })) ∧
    fill_price_of testConfig ordSell.side 2010 = 2010 ∧
    sGold.balance + ((2010 : ℚ) - 2000) * min |(10 : ℚ)| |(-15 : ℚ)| *
      (if (0 : ℚ) < 10 then 1 else -1) = 30100 ∧
    (10 : ℚ) + -15 = -5 := by
  refine ⟨submit_order_reduce_close_flip testConfig sGold ordSell none 7 2010
    { size := 10, entry := 2000, pnl := 100 } (-15) rfl rfl rfl
    (by simp [ordSell]) (by norm_num), ?_, ?_, by norm_num⟩
  · norm_num [fill_price_of, ordSell, testConfig]
  · norm_num [sGold, max_def, min_def, abs]

/-- The new-position branch of `fill_step`: a symbol with no existing
position gets size = signed size and entry = fill price. -/
theorem fill_step_new (cfg : AppConfig) (s : BrokerState) (order : OrderRequest)
    (mid : ℚ) (n : ℕ) (signed : ℚ)
    (hpos : alookup s.positions order.symbol = none)
    (hsigned : signed = (if order.side = "BUY" then order.size else -order.size))
    (hnz : signed ≠ 0) :
    alookup (fill_step cfg s order mid n).2.positions order.symbol =
      some { size := signed, entry := fill_price_of cfg order.side mid,
             pnl := (mid - fill_price_of cfg order.side mid) * signed } ∧
    (fill_step cfg s order mid n).2.balance = s.balance := by
  constructor
  · simp [fill_step, hpos, ← hsigned, hnz, mark_positions_alookup,
      alookup_aset_self]
  · simp [fill_step, hpos, ← hsigned, hnz, mark_positions_balance]

/-- The same-direction-add branch of `fill_step`: the new entry price is
the size-weighted average of the old entry and the fill. -/
theorem fill_step_add (cfg : AppConfig) (s : BrokerState) (order : OrderRequest)
    (mid : ℚ) (n : ℕ) (p : Position) (signed : ℚ)
    (hpos : alookup s.positions order.symbol = some p)
    (hsigned : signed = (if order.side = "BUY" then order.size else -order.size))
    (hsame : (0 < p.size ∧ 0 < signed) ∨ (p.size < 0 ∧ signed < 0)) :
    alookup (fill_step cfg s order mid n).2.positions order.symbol =
      some { size := p.size + signed,
             entry := (p.entry * |p.size| +
               fill_price_of cfg order.side mid * |signed|) / |p.size + signed|,
             pnl := (mid - (p.entry * |p.size| +
               fill_price_of cfg order.side mid * |signed|) / |p.size + signed|) *
               (p.size + signed) } ∧
    (fill_step cfg s order mid n).2.balance = s.balance := by
  have hcond : p.size = 0 ∨ (p.size > 0 ∧ signed > 0) ∨
      (p.size < 0 ∧ signed < 0) := by
    rcases hsame with ⟨h1, h2⟩ | ⟨h1, h2⟩
    · exact Or.inr (Or.inl ⟨h1, h2⟩)
    · exact Or.inr (Or.inr ⟨h1, h2⟩)
  have hne : p.size ≠ 0 := by
    rcases hsame with ⟨h1, _⟩ | ⟨h1, _⟩
    · exact ne_of_gt h1
    · exact ne_of_lt h1
  have hsumne : p.size + signed ≠ 0 := by
    rcases hsame with ⟨h1, h2⟩ | ⟨h1, h2⟩
    · exact ne_of_gt (add_pos h1 h2)
    · exact ne_of_lt (add_neg h1 h2)
  constructor
  · simp [fill_step, hpos, ← hsigned, if_pos hcond, if_pos hne, hsumne,
      mark_positions_alookup, alookup_aset_self]
  · simp [fill_step, hpos, ← hsigned, if_pos hcond, mark_positions_balance]

/-- Invariant of a run of BUY fills on a long position: the position
size accumulates the bought sizes and entry · size accumulates the
notional, order by order. -/
theorem runBuys_aux (cfg : AppConfig) (sym : String) :
    ∀ (orders : List (ℚ × ℚ)) (s : BrokerState) (p : Position),
      s.connected = true → alookup s.positions sym = some p → 0 < p.size →
      (∀ o ∈ orders, 0 < o.2) →
      ∃ q : Position,
        alookup (runBuys cfg sym s orders).positions sym = some q ∧
        q.size = p.size + totalSize orders ∧
        q.entry * q.size = p.entry * p.size + totalNotional cfg orders
  | [], s, p, _, hpos, _, _ => by
    refine ⟨p, ?_, ?_, ?_⟩ <;> simp [runBuys, totalSize, totalNotional, hpos]
  | (mid, sz) :: rest, s, p, hc, hpos, hp, hall => by
    have hsz : 0 < sz := hall (mid, sz) (List.mem_cons_self _ _)
    have hmid : alookup (aset s.last_prices sym mid) sym = some mid :=
      alookup_aset_self s.last_prices sym mid
    have hsub : submit_order cfg { s with last_prices := aset s.last_prices sym mid }
        { symbol := sym, side := "BUY", size := sz, price := 0, stop_loss := 0,
          take_profit := none } none 0 =
        Except.ok (fill_step cfg { s with last_prices := aset s.last_prices sym mid }
          { symbol := sym, side := "BUY", size := sz, price := 0, stop_loss := 0,
            take_profit := none } mid 0) := by
      simp [submit_order, hc, hmid]
    have hrun : runBuys cfg sym s ((mid, sz) :: rest) =
        runBuys cfg sym
          (fill_step cfg { s with last_prices := aset s.last_prices sym mid }
            { symbol := sym, side := "BUY", size := sz, price := 0, stop_loss := 0,
              take_profit := none } mid 0).2 rest := by
      simp [runBuys, hsub]
    have hadd := fill_step_add cfg
      { s with last_prices := aset s.last_prices sym mid }
      { symbol := sym, side := "BUY", size := sz, price := 0, stop_loss := 0,
        take_profit := none } mid 0 p sz hpos (by simp) (Or.inl ⟨hp, hsz⟩)
    obtain ⟨q, hq, hqs, hqe⟩ := runBuys_aux cfg sym rest _ _
      (by rw [fill_step_connected]; exact hc) hadd.1
      (by simp; exact add_pos hp hsz)
      (fun o ho => hall o (List.mem_cons_of_mem _ ho))
    refine ⟨q, by rw [hrun]; exact hq, ?_, ?_⟩
    · rw [hqs]
      simp [totalSize]
      ring
    · rw [hqe]
      have hEmul : (p.entry * |p.size| + fill_price_of cfg "BUY" mid * |sz|) /
            |p.size + sz| * (p.size + sz) =
          p.entry * p.size + fill_price_of cfg "BUY" mid * sz := by
        rw [abs_of_pos hp, abs_of_pos hsz, abs_of_pos (add_pos hp hsz)]
        rw [div_mul_cancel₀]
        exact ne_of_gt (add_pos hp hsz)
      simp only [totalNotional, List.map_cons, List.sum_cons]
      simp only at hEmul ⊢
      rw [hEmul]
      ring

/-- C5: a brand-new position takes the fill price as its entry; a
same-direction add re-bases the entry at the size-weighted average
(entry · |old| + fill · |signed|) / |new|; and a run of BUY fills from a
flat book ends with entry = total notional / total size, the
size-weighted average of all the fills. -/
theorem entry_price_weighted_average :
    (∀ (cfg : AppConfig) (s : BrokerState) (order : OrderRequest)
        (fetched : Option ℚ) (now_ms : ℕ) (mid signed : ℚ),
      s.connected = true → alookup s.last_prices order.symbol = some mid →
      alookup s.positions order.symbol = none →
      signed = (if order.side = "BUY" then order.size else -order.size) →
      signed ≠ 0 →
      ∃ r : OrderResult × BrokerState,
        submit_order cfg s order fetched now_ms = Except.ok r ∧
        alookup r.2.positions order.symbol =
          some { size := signed, entry := fill_price_of cfg order.side mid,
                 pnl := (mid - fill_price_of cfg order.side mid) * signed }) ∧
    (∀ (cfg : AppConfig) (s : BrokerState) (order : OrderRequest)
        (fetched : Option ℚ) (now_ms : ℕ) (mid : ℚ) (p : Position) (signed : ℚ),
      s.connected = true → alookup s.last_prices order.symbol = some mid →
      alookup s.positions order.symbol = some p →
      signed = (if order.side = "BUY" then order.size else -order.size) →
      ((0 < p.size ∧ 0 < signed) ∨ (p.size < 0 ∧ signed < 0)) →
      ∃ r : OrderResult × BrokerState,
        submit_order cfg s order fetched now_ms = Except.ok r ∧
        alookup r.2.positions order.symbol =
          some { size := p.size + signed,
                 entry := (p.entry * |p.size| +
                   fill_price_of cfg order.side mid * |signed|) / |p.size + signed|,
                 pnl := (mid - (p.entry * |p.size| +
                   fill_price_of cfg order.side mid * |signed|) / |p.size + signed|) *
                   (p.size + signed) }) ∧
    (∀ (cfg : AppConfig) (sym : String) (s : BrokerState) (orders : List (ℚ × ℚ)),
      s.connected = true → alookup s.positions sym = none →
      orders ≠ [] → (∀ o ∈ orders, 0 < o.2) →
      ∃ q : Position,
        alookup (runBuys cfg sym s orders).positions sym = some q ∧
        q.size = totalSize orders ∧
        q.entry = totalNotional cfg orders / totalSize orders) := by
  refine ⟨?_, ?_, ?_⟩
  · intro cfg s order fetched now_ms mid signed hc hmid hpos hsigned hnz
    refine ⟨fill_step cfg s order mid now_ms, by simp [submit_order, hc, hmid], ?_⟩
    exact (fill_step_new cfg s order mid now_ms signed hpos hsigned hnz).1
  · intro cfg s order fetched now_ms mid p signed hc hmid hpos hsigned hsame
    refine ⟨fill_step cfg s order mid now_ms, by simp [submit_order, hc, hmid], ?_⟩
    exact (fill_step_add cfg s order mid now_ms p signed hpos hsigned hsame).1
  · intro cfg sym s orders hc hpos hne hall
    rcases orders with _ | ⟨⟨mid, sz⟩, rest⟩
    · exact absurd rfl hne
    have hsz : 0 < sz := hall (mid, sz) (List.mem_cons_self _ _)
    have hmid : alookup (aset s.last_prices sym mid) sym = some mid :=
      alookup_aset_self s.last_prices sym mid
    have hsub : submit_order cfg { s with last_prices := aset s.last_prices sym mid }
        { symbol := sym, side := "BUY", size := sz, price := 0, stop_loss := 0,
          take_profit := none } none 0 =
        Except.ok (fill_step cfg { s with last_prices := aset s.last_prices sym mid }
          { symbol := sym, side := "BUY", size := sz, price := 0, stop_loss := 0,
            take_profit := none } mid 0) := by
      simp [submit_order, hc, hmid]
    have hrun : runBuys cfg sym s ((mid, sz) :: rest) =
        runBuys cfg sym
          (fill_step cfg { s with last_prices := aset s.last_prices sym mid }
            { symbol := sym, side := "BUY", size := sz, price := 0, stop_loss := 0,
              take_profit := none } mid 0).2 rest := by
      simp [runBuys, hsub]
    have hnew := fill_step_new cfg
      { s with last_prices := aset s.last_prices sym mid }
      { symbol := sym, side := "BUY", size := sz, price := 0, stop_loss := 0,
        take_profit := none } mid 0 sz hpos (by simp) (ne_of_gt hsz)
    obtain ⟨q, hq, hqs, hqe⟩ := runBuys_aux cfg sym rest _ _
      (by rw [fill_step_connected]; exact hc) hnew.1 (by simp; exact hsz)
      (fun o ho => hall o (List.mem_cons_of_mem _ ho))
    have hts : totalSize ((mid, sz) :: rest) = sz + totalSize rest := by
      simp [totalSize]
    have htspos : 0 < totalSize ((mid, sz) :: rest) := by
      rw [hts]
      have : 0 ≤ totalSize rest := by
        apply List.sum_nonneg
        intro x hx
        simp only [List.mem_map] at hx
        obtain ⟨o, ho, rfl⟩ := hx
        exact (hall o (List.mem_cons_of_mem _ ho)).le
      linarith
    refine ⟨q, by rw [hrun]; exact hq, ?_, ?_⟩
    · rw [hqs]
      simp only at hqs ⊢
      rw [hts]
    · have hsize : q.size = totalSize ((mid, sz) :: rest) := by
        rw [hqs, hts]
      rw [eq_div_iff (ne_of_gt htspos), ← hsize, hqe]
      simp only [totalNotional, List.map_cons, List.sum_cons]

/-- C5 witness: adding BUY 5 at mid 2010 to the long 10 @ 2000 gold
position re-bases the entry at the size-weighted average
(2000·10 + 2010·5)/15, and the two-fill run of `buysSeq` from a flat
book ends with entry = total notional / total size. -/
theorem entry_price_weighted_average_witness :
    (∃ r : OrderResult × BrokerState,
      submit_order testConfig sGold ordBuy5 none 7 = Except.ok r ∧
      alookup r.2.positions ordBuy5.symbol =
        some { size := (10 : ℚ) + 5,
               entry := ((2000 : ℚ) * |(10 : ℚ)| +
                 fill_price_of testConfig ordBuy5.side 2010 * |(5 : ℚ)|) /
                 |(10 : ℚ) + 5|,
               pnl := (2010 - ((2000 : ℚ) * |(10 : ℚ)| +
                 fill_price_of testConfig ordBuy5.side 2010 * |(5 : ℚ)|) /
                 |(10 : ℚ) + 5|) * ((10 : ℚ) + 5) }) ∧
    (∃ q : Position,
      alookup (runBuys testConfig "XAUUSD" sNoPrice buysSeq).positions "XAUUSD" =
        some q ∧
      q.size = totalSize buysSeq ∧
      q.entry = totalNotional testConfig buysSeq / totalSize buysSeq) :=
  ⟨entry_price_weighted_average.2.1 testConfig sGold ordBuy5 none 7 2010
      { size := 10, entry := 2000, pnl := 100 } 5 rfl rfl rfl (by simp [ordBuy5])
      (Or.inl ⟨by norm_num, by norm_num⟩),
   entry_price_weighted_average.2.2 testConfig "XAUUSD" sNoPrice buysSeq rfl rfl
      (by simp [buysSeq]) (by
        intro o ho
        simp only [buysSeq, List.mem_cons, List.not_mem_nil, or_false] at ho
        rcases ho with h | h <;> subst h <;> norm_num)⟩

/-- C8: for every non-HOLD decision carrying a stop-loss, `execute`
applies its gates in order — spread, then volatility, then the
stop-side sanity check (BUY needs stop < ask, SELL needs stop > bid),
then risk validation — returning the first failure as a failed
OrderResult with that gate's reason; in particular a risk rejection is
caught and returned as a failed result, not an exception. -/
theorem execute_gate_order (cfg : AppConfig) (broker : BrokerState)
    (rs : RiskState) (tick : PriceTick) (decision : ExecutionDecision)
    (account : AccountInfo) (positions : List (String × Position))
    (fetched : Option ℚ) (now_ms : ℕ) (sl : ℚ)
    (hnh : decision.signal ≠ "HOLD") (hsl : decision.stop_loss = some sl) :
    (cfg.spread_limit < tick.spread →
      execute cfg broker rs tick decision account positions fetched now_ms =
        Except.ok (failResult "Spread too wide", rs, broker)) ∧
    (tick.spread ≤ cfg.spread_limit → cfg.volatility_limit < tick.volatility →
      execute cfg broker rs tick decision account positions fetched now_ms =
        Except.ok (failResult "Volatility too high", rs, broker)) ∧
    (tick.spread ≤ cfg.spread_limit → tick.volatility ≤ cfg.volatility_limit →
      decision.signal = "BUY" → tick.ask ≤ sl →
      execute cfg broker rs tick decision account positions fetched now_ms =
        Except.ok (failResult "Stop-loss must be below entry for BUY", rs, broker)) ∧
    (tick.spread ≤ cfg.spread_limit → tick.volatility ≤ cfg.volatility_limit →
      decision.signal ≠ "BUY" → sl ≤ tick.bid →
      execute cfg broker rs tick decision account positions fetched now_ms =
        Except.ok (failResult "Stop-loss must be above entry for SELL", rs, broker)) ∧
    (∀ e : String, tick.spread ≤ cfg.spread_limit →
      tick.volatility ≤ cfg.volatility_limit →
      (decision.signal = "BUY" → sl < tick.ask) →
      (decision.signal ≠ "BUY" → tick.bid < sl) →
      (validate_order cfg rs (exec_context tick decision sl) account positions).2 =
        Except.error e →
      execute cfg broker rs tick decision account positions fetched now_ms =
        Except.ok (failResult e,
          (validate_order cfg rs (exec_context tick decision sl) account positions).1,
          broker)) := by
  refine ⟨?_, ?_, ?_, ?_, ?_⟩
  · intro h1
    simp [execute, hnh, hsl, h1]
  · intro h1 h2
    simp [execute, hnh, hsl, not_lt.mpr h1, h2]
  · intro h1 h2 hb h4
    simp [execute, exec_context, hnh, hsl, not_lt.mpr h1, not_lt.mpr h2, hb, h4]
  · intro h1 h2 hb h4
    simp [execute, exec_context, hnh, hsl, not_lt.mpr h1, not_lt.mpr h2, hb, h4]
  · intro e h1 h2 hb hs hval
    by_cases hsig : decision.signal = "BUY"
    · simp [exec_context, hsig] at hval
      simp [execute, exec_context, hnh, hsl, not_lt.mpr h1, not_lt.mpr h2, hsig,
        not_le.mpr (hb hsig)]
      rw [hval]
    · simp [exec_context, hsig] at hval
      simp [execute, exec_context, hnh, hsl, not_lt.mpr h1, not_lt.mpr h2, hsig,
        not_le.mpr (hs hsig)]
      rw [hval]

/-- C8 witness: on a tick whose spread 1 exceeds the limit 0.5, the BUY
decision is rejected with the spread reason. -/
theorem execute_gate_order_witness :
    execute testConfig sGold rsMidday tickWide decBuy (acctAt 30000) [] none 7 =
      Except.ok (failResult "Spread too wide", rsMidday, sGold) :=
  (execute_gate_order testConfig sGold rsMidday tickWide decBuy (acctAt 30000) []
      none 7 1990 (by simp [decBuy]) rfl).1
    (by norm_num [tickWide, testConfig])

end Trading
